import Mathlib

/-!
Verification of the kamaji per-tenant resource reconcilers.

A shallow embedding of the Go sources under `internal/resources/konnectivity`
(`deployment_resource.go`, `cluster_role_binding_resource.go`) and
`internal/resources/datastore` (`datastore_storage_config.go`), together with
proofs about the mutation and clean-up functions they define.

Helper functions from `internal/utilities` (the argument-list codec, the
named-element locators, the map checksum, label helpers and the
create-or-update wrapper) are not part of the sources; they are modelled from
the specification document and marked as such in their doc comments.
-/

set_option autoImplicit false

namespace Kamaji

/-! ## Argument-list codec (modelled from the spec) -/

/-- Splits a character list at the first occurrence of the separator,
returning the prefix and, when the separator occurs, the remainder after it. -/
def splitFirstEq : List Char → List Char × Option (List Char)
  | [] => ([], none)
  | c :: cs =>
    if c = '=' then ([], some cs)
    else
      let r := splitFirstEq cs
      (c :: r.1, r.2)

/-- Modelled from the spec: one token of the Argument-List Codec
(`internal/utilities`, not under `src/`). A token `--flag=value` decodes to
the flag and its value; a token without `=` decodes to the flag with no
value, so that flags whose value is empty round-trip. -/
def decodeArg (arg : String) : String × Option String :=
  let r := splitFirstEq arg.data
  (String.mk r.1, r.2.map String.mk)

/-- Modelled from the spec: re-serialisation of one flag/value pair of the
Argument-List Codec. -/
def encodeArg (p : String × Option String) : String :=
  match p.2 with
  | none => p.1
  | some v => p.1 ++ "=" ++ v

/-- Modelled from the spec: `utilities.ArgsAddFlagValue`-style assignment on
the flag→value mapping: overwrite in place when the flag is present (never
duplicating a flag), append otherwise, preserving the relative order of the
untouched flags. -/
def argsSetFlag (m : List (String × Option String)) (k : String)
    (v : Option String) : List (String × Option String) :=
  if m.any (fun p => p.1 = k) then
    m.map (fun p => if p.1 = k then (k, v) else p)
  else
    m ++ [(k, v)]

/-- Modelled from the spec: `utilities.ArgsFromSliceToMap` (not under
`src/`): decodes an ordered list of `--flag=value` tokens into the ordered
flag→value mapping, repeated flags overwriting in place. -/
def ArgsFromSliceToMap (args : List String) : List (String × Option String) :=
  args.foldl (fun m a => argsSetFlag m (decodeArg a).1 (decodeArg a).2) []

/-- Modelled from the spec: `utilities.ArgsFromMapToSlice` (not under
`src/`): re-serialises the ordered flag→value mapping to a deterministic
ordered list of tokens. -/
def ArgsFromMapToSlice (m : List (String × Option String)) : List String :=
  m.map encodeArg

/-- Modelled from the spec: `utilities.ArgsAddFlagValue` (not under `src/`):
add-if-absent, overwrite-if-present, never duplicating a flag. -/
def ArgsAddFlagValue (m : List (String × Option String)) (k v : String) :
    List (String × Option String) :=
  argsSetFlag m k (some v)

/-- Modelled from the spec: `utilities.ArgsRemoveFlag` (not under `src/`):
deletes the flag from the mapping and reports whether it was present. -/
def ArgsRemoveFlag (m : List (String × Option String)) (k : String) :
    Bool × List (String × Option String) :=
  (m.any (fun p => p.1 = k), m.filter (fun p => ¬ p.1 = k))

/-- Value of a flag in the flag→value mapping (first entry wins). -/
def argsLookup (m : List (String × Option String)) (k : String) :
    Option (Option String) :=
  (m.find? (fun p => p.1 = k)).map (fun p => p.2)

/-! ## Named-element locator (modelled from the spec) -/

/-- Modelled from the spec: the Named-Element Locator
(`utilities.HasNamedContainer` / `HasNamedVolume` / `HasNamedVolumeMount`,
not under `src/`): position of the first element of the ordered collection
carrying the given name, or `none` when absent. -/
def findNamed {α : Type} (nm : String) (getName : α → String) :
    List α → Option Nat
  | [] => none
  | x :: xs =>
    if getName x = nm then some 0
    else (findNamed nm getName xs).map (fun i => i + 1)

/-- Removal of the first element carrying the given name, splicing the rest
together as the Go code does with `xs[:i]` and `xs[i+1:]`; a no-op when the
name is absent. -/
def removeNamed {α : Type} (nm : String) (getName : α → String)
    (xs : List α) : List α :=
  match findNamed nm getName xs with
  | some i => xs.take i ++ xs.drop (i + 1)
  | none => xs

/-! ## Checksum and label helpers (modelled from the spec) -/

/-- Insertion into a sorted list of strings, used to make the checksum
independent of the order of the payload. -/
def insertSorted (s : String) : List String → List String
  | [] => [s]
  | x :: xs => if x < s then x :: insertSorted s xs else s :: x :: xs

/-- Modelled from the spec: the Checksum & Change-Detection Utility
(`utilities.CalculateMapChecksum`, not under `src/`): a stable digest over an
unordered key/value payload — deterministic and insensitive to the order in
which the pairs are listed. -/
def CalculateMapChecksum (m : List (String × String)) : String :=
  ((m.map (fun p => p.1 ++ "=" ++ p.2 ++ ";")).foldr insertSorted []).foldl
    (fun acc s => acc ++ s) ""

/-- Lookup in a string map modelled as an association list. -/
def mapLookup (m : List (String × String)) (k : String) : Option String :=
  (m.find? (fun p => p.1 = k)).map (fun p => p.2)

/-- Assignment in a string map modelled as an association list. -/
def mapSet (m : List (String × String)) (k v : String) :
    List (String × String) :=
  if m.any (fun p => p.1 = k) then
    m.map (fun p => if p.1 = k then (k, v) else p)
  else
    m ++ [(k, v)]

/-- Modelled from the spec: `utilities.MergeMaps` (not under `src/`): union
of two maps, the entries of the second overriding the first. -/
def MergeMaps (base overrides : List (String × String)) :
    List (String × String) :=
  overrides.foldl (fun acc p => mapSet acc p.1 p.2) base

/-- Modelled from the spec: `utilities.KamajiLabels` (not under `src/`): the
fixed labels applied to every managed object; the exact literals are not
given by the specification. -/
def KamajiLabels : List (String × String) :=
  [("kamaji.clastix.io/managed-by", "kamaji")]

/-! ## Data model

The fields of the Kubernetes objects and of the `TenantControlPlane` that the
three source files read or write. Fields never touched by the sources are
collapsed into an opaque `other` component where preservation matters. -/

/-- Embeds `corev1.ResourceRequirements`: only compared and copied wholesale. -/
structure ResourceRequirements where
  limits : Option String := none
  requests : Option String := none
deriving DecidableEq, Repr

/-- Embeds `corev1.VolumeMount` (fields used by the sources). -/
structure VolumeMount where
  name : String := ""
  mountPath : String := ""
  subPath : String := ""
  readOnly : Bool := false
deriving DecidableEq, Repr

instance : Inhabited VolumeMount := ⟨{}⟩

/-- Embeds `corev1.ContainerPort` (fields used by the sources). -/
structure ContainerPort where
  name : String
  containerPort : Int
  protocol : String
deriving DecidableEq, Repr

/-- Embeds `corev1.HTTPGetAction` (fields used by the sources). -/
structure HTTPGetAction where
  path : String
  port : Int
  scheme : String
deriving DecidableEq, Repr

/-- Embeds `corev1.Probe` (fields used by the sources). -/
structure Probe where
  initialDelaySeconds : Int
  timeoutSeconds : Int
  periodSeconds : Int
  successThreshold : Int
  failureThreshold : Int
  httpGet : Option HTTPGetAction
deriving DecidableEq, Repr

/-- Embeds `corev1.Container`: the fields `deployment_resource.go` reads or writes,
plus `other` standing for every field it never touches. -/
structure Container where
  name : String := ""
  image : String := ""
  command : List String := []
  args : List String := []
  livenessProbe : Option Probe := none
  ports : List ContainerPort := []
  volumeMounts : List VolumeMount := []
  imagePullPolicy : String := ""
  resources : ResourceRequirements := {}
  other : String := ""
deriving DecidableEq, Repr

instance : Inhabited Container := ⟨{}⟩

/-- Embeds `corev1.VolumeSource`: the three variants `syncVolumes` writes, plus a
catch-all for any pre-existing source. -/
inductive VolumeSource where
  | emptySource
  | emptyDir (medium : String)
  | configMap (name : String) (defaultMode : Int)
  | secret (secretName : String) (defaultMode : Int)
  | otherSource (descr : String)
deriving DecidableEq, Repr

/-- Embeds `corev1.Volume`: a name and a volume source. -/
structure Volume where
  name : String := ""
  source : VolumeSource := .emptySource
deriving DecidableEq, Repr

instance : Inhabited Volume := ⟨{}⟩

/-- The part of an `appsv1.Deployment` the sources touch:
`Spec.Template.Spec.Containers` and `Spec.Template.Spec.Volumes`. -/
structure Deployment where
  containers : List Container := []
  volumes : List Volume := []
deriving DecidableEq, Repr

/-- Embeds the `KonnectivitySpec` of the tenant control plane's `Spec.Addons`:
image, version, port, extra arguments and optional resources of the
konnectivity server. -/
structure KonnectivitySpec where
  image : String := ""
  version : String := ""
  port : Int := 0
  extraArgs : List String := []
  resources : Option ResourceRequirements := none
deriving DecidableEq, Repr

/-- Embeds the `Status.Addons.Konnectivity` fields read by the sources. -/
structure KonnectivityStatus where
  enabled : Bool := false
  configMapName : String := ""
  kubeconfigSecretName : String := ""
  clusterRoleBindingName : String := ""
deriving DecidableEq, Repr

/-- Embeds the `Status.Storage.Setup` fields read by the datastore config resource. -/
structure StorageSetupStatus where
  schema : String := ""
  user : String := ""
deriving DecidableEq, Repr

/-- The slice of the `TenantControlPlane` spec the sources read. -/
structure TCPSpec where
  konnectivity : Option KonnectivitySpec := none
  replicas : Int := 0
deriving DecidableEq, Repr

/-- The slice of the `TenantControlPlane` status the sources read. -/
structure TCPStatus where
  konnectivity : KonnectivityStatus := {}
  storageSetup : StorageSetupStatus := {}
deriving DecidableEq, Repr

/-- The slice of a `kamajiv1alpha1.TenantControlPlane` the sources read.
`ns` stands for the object's namespace (`GetNamespace()`). -/
structure TenantControlPlane where
  name : String := ""
  ns : String := ""
  spec : TCPSpec := {}
  status : TCPStatus := {}
deriving DecidableEq, Repr

/-- Embeds `controllerutil.OperationResult`. -/
inductive OperationResult where
  | resultNone
  | created
  | updated
deriving DecidableEq, Repr

/-! ## Konnectivity deployment resource
(`internal/resources/konnectivity/deployment_resource.go`) -/

namespace Konnectivity

def konnectivityEgressSelectorConfigurationPath : String :=
  "/etc/kubernetes/konnectivity/configurations/egress-selector-configuration.yaml"

def konnectivityServerName : String := "konnectivity-server"

def konnectivityServerPath : String := "/run/konnectivity"

def egressSelectorConfigurationVolume : String := "egress-selector-configuration"

def konnectivityUDSVolume : String := "konnectivity-uds"

def konnectivityServerKubeconfigVolume : String := "konnectivity-server-kubeconfig"

/-- Modelled from the spec: the fixed identity constants of the konnectivity
package (`CertCommonName`, `AgentName`, `roleAuthDelegator`), declared in
files of the `konnectivity` package that are not under `src/`; the exact
literals are not given by the specification, only that they are fixed. -/
def CertCommonName : String := "system:konnectivity-server"

/-- Modelled from the spec: see `CertCommonName`. -/
def AgentName : String := "konnectivity-agent"

/-- Modelled from the spec: see `CertCommonName`. -/
def roleAuthDelegator : String := "system:auth-delegator"

/-- The argument map `syncContainer` builds: the user-supplied `ExtraArgs`
decoded to a map, every required flag assigned afterwards. -/
def konnectivityServerArgs (k : KonnectivitySpec) (replicas : Int) :
    List (String × Option String) :=
  let args := ArgsFromSliceToMap k.extraArgs
  let args := argsSetFlag args "--uds-name"
    (some (konnectivityServerPath ++ "/konnectivity-server.socket"))
  let args := argsSetFlag args "--cluster-cert" (some "/etc/kubernetes/pki/apiserver.crt")
  let args := argsSetFlag args "--cluster-key" (some "/etc/kubernetes/pki/apiserver.key")
  let args := argsSetFlag args "--mode" (some "grpc")
  let args := argsSetFlag args "--server-port" (some "0")
  let args := argsSetFlag args "--agent-port" (some (toString k.port))
  let args := argsSetFlag args "--admin-port" (some "8133")
  let args := argsSetFlag args "--health-port" (some "8134")
  let args := argsSetFlag args "--agent-namespace" (some "kube-system")
  let args := argsSetFlag args "--agent-service-account" (some AgentName)
  let args := argsSetFlag args "--kubeconfig" (some "/etc/kubernetes/konnectivity-server.conf")
  let args := argsSetFlag args "--authentication-audience" (some CertCommonName)
  let args := argsSetFlag args "--server-count" (some (toString replicas))
  args

/-- The liveness probe `syncContainer` assigns. -/
def konnectivityLivenessProbe : Probe :=
  { initialDelaySeconds := 30
    timeoutSeconds := 60
    periodSeconds := 10
    successThreshold := 1
    failureThreshold := 3
    httpGet := some { path := "/healthz", port := 8134, scheme := "HTTP" } }

/-- The container ports `syncContainer` assigns. -/
def konnectivityPorts (port : Int) : List ContainerPort :=
  [ { name := "agentport", containerPort := port, protocol := "TCP" }
  , { name := "adminport", containerPort := 8133, protocol := "TCP" }
  , { name := "healthport", containerPort := 8134, protocol := "TCP" } ]

/-- The volume mounts `syncContainer` assigns to the konnectivity container. -/
def konnectivityServerMounts : List VolumeMount :=
  [ { name := "etc-kubernetes-pki", mountPath := "/etc/kubernetes/pki", readOnly := true }
  , { name := "konnectivity-server-kubeconfig"
     , mountPath := "/etc/kubernetes/konnectivity-server.conf"
     , subPath := "konnectivity-server.conf", readOnly := true }
  , { name := konnectivityUDSVolume, mountPath := konnectivityServerPath, readOnly := false } ]

/-- The overwrite `syncContainer` performs on the slot holding the
konnectivity server container: every listed field is assigned, the fields
the Go code does not assign are kept from the existing slot. -/
def syncedServerContainer (k : KonnectivitySpec) (replicas : Int)
    (c : Container) : Container :=
  { c with
    name := konnectivityServerName
    image := k.image ++ ":" ++ k.version
    command := ["/proxy-server"]
    args := ArgsFromMapToSlice (konnectivityServerArgs k replicas)
    livenessProbe := some konnectivityLivenessProbe
    ports := konnectivityPorts k.port
    volumeMounts := konnectivityServerMounts
    imagePullPolicy := "Always"
    resources :=
      match k.resources with
      | none => { limits := none, requests := none }
      | some r => { limits := r.limits, requests := r.requests } }

/-- Embeds `syncContainer`: locate the konnectivity server container by name; when
absent append an empty slot; overwrite the slot. -/
def syncContainer (tcp : TenantControlPlane) (k : KonnectivitySpec)
    (d : Deployment) : Deployment :=
  match findNamed konnectivityServerName Container.name d.containers with
  | some i =>
    { d with containers :=
        d.containers.set i (syncedServerContainer k tcp.spec.replicas (d.containers.getD i {})) }
  | none =>
    { d with containers :=
        d.containers ++ [syncedServerContainer k tcp.spec.replicas {}] }

/-- One named volume-mount patch of `patchKubeAPIServerContainer`: locate by
name (append an empty slot when absent), then assign `Name`, `ReadOnly` and
`MountPath` of the slot; the `SubPath` of an existing slot is kept. -/
def setNamedMount (nm : String) (ro : Bool) (mp : String)
    (ms : List VolumeMount) : List VolumeMount :=
  match findNamed nm VolumeMount.name ms with
  | some j => ms.set j { ms.getD j {} with name := nm, readOnly := ro, mountPath := mp }
  | none => ms ++ [{ name := nm, readOnly := ro, mountPath := mp }]

/-- The in-place patch `patchKubeAPIServerContainer` performs on the
`kube-apiserver` container: the egress-selector flag is added to its
arguments (add-if-absent, overwrite-if-present), and its two konnectivity
volume mounts are patched (UDS first, then the egress-selector
configuration). -/
def patchedKASContainer (c : Container) : Container :=
  let c2 := { c with args :=
    (ArgsFromMapToSlice (ArgsAddFlagValue (ArgsFromSliceToMap c.args)
      "--egress-selector-config-file"
      konnectivityEgressSelectorConfigurationPath)) }
  { c2 with volumeMounts :=
    (setNamedMount egressSelectorConfigurationVolume false
      "/etc/kubernetes/konnectivity/configurations"
      (setNamedMount konnectivityUDSVolume false konnectivityServerPath
        c2.volumeMounts)) }

/-- Embeds `patchKubeAPIServerContainer`: fails when no `kube-apiserver` container
exists; otherwise applies `patchedKASContainer` to it, in place. -/
def patchKubeAPIServerContainer (d : Deployment) : Except String Deployment :=
  match findNamed "kube-apiserver" Container.name d.containers with
  | none => .error "missing kube-apiserver container, cannot patch arguments"
  | some i =>
    .ok { d with containers :=
      (d.containers.set i (patchedKASContainer (d.containers.getD i {}))) }

/-- One named volume patch of `syncVolumes`: locate by name (append an empty
slot when absent), then assign `Name` and the whole `VolumeSource`. -/
def setNamedVolume (nm : String) (src : VolumeSource) (vs : List Volume) :
    List Volume :=
  match findNamed nm Volume.name vs with
  | some j => vs.set j { name := nm, source := src }
  | none => vs ++ [{ name := nm, source := src }]

/-- Embeds `syncVolumes`: patch, in order, the UDS volume, the egress-selector
configuration volume and the konnectivity kubeconfig volume. -/
def syncVolumes (tcp : TenantControlPlane) (d : Deployment) : Deployment :=
  { d with volumes :=
      (setNamedVolume konnectivityServerKubeconfigVolume
        (.secret tcp.status.konnectivity.kubeconfigSecretName 420)
        (setNamedVolume egressSelectorConfigurationVolume
          (.configMap tcp.status.konnectivity.configMapName 420)
          (setNamedVolume konnectivityUDSVolume (.emptyDir "Memory")
            d.volumes))) }

/-- Embeds `KubernetesDeploymentResource.mutate`: no-op when the add-on is
disabled; error when the container list is empty; otherwise sync the
konnectivity container, patch the `kube-apiserver` container and sync the
volumes. -/
def deploymentMutate (tcp : TenantControlPlane) (d : Deployment) :
    Except String Deployment :=
  match tcp.spec.konnectivity with
  | none => .ok d
  | some k =>
    if d.containers.length = 0 then
      .error "the Deployment resource is not ready to be mangled for Konnectivity server enrichment"
    else
      match patchKubeAPIServerContainer (syncContainer tcp k d) with
      | .error e => .error ("cannot sync patch kube-apiserver container: " ++ e)
      | .ok d2 => .ok (syncVolumes tcp d2)

/-- The closure inside `KubernetesDeploymentResource.CleanUp`: delete the
konnectivity container; then, when a `kube-apiserver` container exists,
strip the egress-selector flag from its arguments (re-encoding only when the
flag was present), delete the two konnectivity volumes, and delete the three
konnectivity volume mounts from the `kube-apiserver` container. -/
def cleanUpMutate (d : Deployment) : Deployment :=
  let d := { d with containers :=
    (removeNamed konnectivityServerName Container.name d.containers) }
  match findNamed "kube-apiserver" Container.name d.containers with
  | none => d
  | some i =>
    let c := d.containers.getD i {}
    let argsMap := ArgsFromSliceToMap c.args
    let rem := ArgsRemoveFlag argsMap "--egress-selector-config-file"
    let c := if rem.1 then { c with args := ArgsFromMapToSlice rem.2 } else c
    let vols :=
      removeNamed egressSelectorConfigurationVolume Volume.name
        (removeNamed konnectivityUDSVolume Volume.name d.volumes)
    let mounts :=
      removeNamed konnectivityServerKubeconfigVolume VolumeMount.name
        (removeNamed egressSelectorConfigurationVolume VolumeMount.name
          (removeNamed konnectivityUDSVolume VolumeMount.name c.volumeMounts))
    { d with
      volumes := vols
      containers := d.containers.set i { c with volumeMounts := mounts } }

/-- Modelled from the spec: `KubernetesDeploymentResource.CleanUp` runs
`cleanUpMutate` through `utilities.CreateOrUpdateWithConflict` (not under
`src/`), which persists only when the mutation changed the object, and
reports work done exactly when the result was an update. -/
def deploymentCleanUp (d : Deployment) : (Bool × Option String) × Deployment :=
  let d2 := cleanUpMutate d
  ((decide (d2 ≠ d), none), d2)

/-! ## Konnectivity cluster role binding resource
(`internal/resources/konnectivity/cluster_role_binding_resource.go`) -/

/-- Embeds `rbacv1.RoleRef`. -/
structure RoleRef where
  apiGroup : String := ""
  kind : String := ""
  name : String := ""
deriving DecidableEq, Repr

/-- Embeds `rbacv1.Subject` (fields used by the sources). -/
structure Subject where
  apiGroup : String := ""
  kind : String := ""
  name : String := ""
deriving DecidableEq, Repr

/-- Embeds `rbacv1.GroupName`. -/
def rbacGroupName : String := "rbac.authorization.k8s.io"

/-- Embeds `rbacv1.UserKind`. -/
def rbacUserKind : String := "User"

/-- The slice of an `rbacv1.ClusterRoleBinding` the sources touch. -/
structure ClusterRoleBinding where
  name : String := ""
  labels : List (String × String) := []
  roleRef : RoleRef := {}
  subjects : List Subject := []
deriving DecidableEq, Repr

/-- Outcome of the external store's delete primitive, as observed by
`ClusterRoleBindingResource.CleanUp`: success, a not-found error, or any
other error. -/
inductive DeleteResult where
  | success
  | notFound
  | otherError (msg : String)
deriving DecidableEq, Repr

/-- Embeds `ClusterRoleBindingResource.CleanUp`: branches on the outcome of
`tenantClient.Delete` — a not-found error is swallowed as `(false, nil)`,
any other error is returned as `(false, err)`, success yields `(true, nil)`. -/
def clusterRoleBindingCleanUp (res : DeleteResult) : Bool × Option String :=
  match res with
  | .notFound => (false, none)
  | .otherError e => (false, some e)
  | .success => (true, none)

/-- The mutation of `ClusterRoleBindingResource.mutate`: labels, role
reference and subjects are fully overwritten. -/
def clusterRoleBindingMutate (b : ClusterRoleBinding) : ClusterRoleBinding :=
  { b with
    labels :=
      MergeMaps KamajiLabels
        [ ("kubernetes.io/cluster-service", "true")
        , ("addonmanager.kubernetes.io/mode", "Reconcile") ]
    roleRef :=
      { apiGroup := rbacGroupName, kind := "ClusterRole", name := roleAuthDelegator }
    subjects :=
      [{ apiGroup := rbacGroupName, kind := rbacUserKind, name := CertCommonName }] }

/-- Embeds `ClusterRoleBindingResource.CreateOrUpdate`: when the add-on is absent
from the spec, no operation is performed; otherwise
`controllerutil.CreateOrUpdate` applies the mutation (modelled from the
spec: the wrapper persists, and reports an update, only when the mutation
changed the object). -/
def clusterRoleBindingCreateOrUpdate (tcp : TenantControlPlane)
    (b : ClusterRoleBinding) :
    (OperationResult × Option String) × ClusterRoleBinding :=
  match tcp.spec.konnectivity with
  | some _ =>
    let b2 := clusterRoleBindingMutate b
    ((if b2 = b then .resultNone else .updated, none), b2)
  | none => ((.resultNone, none), b)

end Konnectivity

/-! ## Datastore config resource
(`internal/resources/datastore/datastore_storage_config.go`) -/

namespace Datastore

/-- Embeds `constants.Checksum`, the key of the payload digest entry in the metadata. -/
def checksumKey : String := "checksum"

/-- The slice of a `corev1.Secret` the source touches: the `Data` payload
(byte strings modelled as strings), annotations, labels and the controller
ownership reference set by `ctrl.SetControllerReference`. -/
structure Secret where
  data : List (String × String) := []
  annotations : List (String × String) := []
  labels : List (String × String) := []
  ownerRef : Option String := none
deriving DecidableEq, Repr

/-- The mutation of `Config.mutate`: `fresh` stands for the random token
`uuid.New().String()` drawn in this run. The password is preserved exactly
when the stored checksum annotation matches the digest of the current
payload; the non-secret fields coalesce the status values with the
namespace-and-name default; the checksum annotation is recomputed over the
final payload; labels and the controller reference are set. -/
def configMutate (connString : String) (fresh : String)
    (tcp : TenantControlPlane) (s : Secret) : Secret :=
  let password :=
    match mapLookup s.annotations checksumKey with
    | some savedHash =>
      if savedHash = CalculateMapChecksum s.data then
        (mapLookup s.data "DB_PASSWORD").getD ""
      else fresh
    | none => fresh
  let coalesceFn := fun (fromStatus : String) =>
    if fromStatus.length > 0 then fromStatus else tcp.ns ++ "_" ++ tcp.name
  let data :=
    [ ("DB_CONNECTION_STRING", connString)
    , ("DB_SCHEMA", coalesceFn tcp.status.storageSetup.schema)
    , ("DB_USER", coalesceFn tcp.status.storageSetup.user)
    , ("DB_PASSWORD", password) ]
  let annotations := mapSet s.annotations checksumKey (CalculateMapChecksum data)
  { s with
    data := data
    annotations := annotations
    labels :=
      MergeMaps KamajiLabels
        [ ("kamaji.clastix.io/name", tcp.name)
        , ("kamaji.clastix.io/component", "datastore-config") ]
    ownerRef := some tcp.name }

/-- Embeds `Config.ShouldCleanup`: constantly false. -/
def configShouldCleanup (_ : TenantControlPlane) : Bool := false

/-- Embeds `Config.CleanUp`: returns `(false, nil)` and touches neither the secret
nor the tenant control plane. -/
def configCleanUp (s : Secret) (tcp : TenantControlPlane) :
    (Bool × Option String) × Secret × TenantControlPlane :=
  ((false, none), s, tcp)

end Datastore

/-! ## Concrete sample objects used to instantiate the theorems -/

/-- A tenant control plane with the konnectivity add-on enabled. -/
def tcpEnabled : TenantControlPlane :=
  { name := "tenant"
    ns := "default"
    spec :=
      { konnectivity := some { image := "img", version := "v1", port := 8132, extraArgs := [] }
        replicas := 2 }
    status :=
      { konnectivity := { configMapName := "cm", kubeconfigSecretName := "sec" } } }

/-- A tenant control plane with the konnectivity add-on disabled. -/
def tcpDisabled : TenantControlPlane := { name := "tenant", ns := "default" }

/-- A deployment holding only the primary `kube-apiserver` container. -/
def dPrimaryOnly : Deployment :=
  { containers := [{ name := "kube-apiserver", args := ["--a=b"] }], volumes := [] }

/-- A deployment with a primary container, an unrelated mount and an
unrelated volume, and no konnectivity contribution. -/
def dUntouched : Deployment :=
  { containers :=
      [{ name := "kube-apiserver", args := ["--a=b"]
         , volumeMounts := [{ name := "pki", mountPath := "/pki" }] }]
    volumes := [{ name := "data", source := .otherSource "pvc" }] }

/-- A secret whose checksum annotation matches its payload. -/
def secretMatching : Datastore.Secret :=
  { data := [("DB_PASSWORD", "old-password")]
    annotations := [(Datastore.checksumKey, CalculateMapChecksum [("DB_PASSWORD", "old-password")])] }

/-- A secret carrying no checksum annotation. -/
def secretUnannotated : Datastore.Secret :=
  { data := [("DB_PASSWORD", "old-password")] }

/-- A secret whose checksum annotation differs from its payload digest. -/
def secretTampered : Datastore.Secret :=
  { data := [("DB_PASSWORD", "old-password")]
    annotations := [(Datastore.checksumKey, "stale")] }

/-! ## List helpers -/

theorem get?_set_self {α : Type} (l : List α) (i : Nat) (b : α)
    (h : i < l.length) : (l.set i b)[i]? = some b := by
  induction l generalizing i with
  | nil => simp at h
  | cons x xs ih =>
    cases i with
    | zero => simp
    | succ n => simpa using ih n (by simpa using h)

theorem get?_set_ne {α : Type} (l : List α) (i j : Nat) (b : α)
    (h : i ≠ j) : (l.set i b)[j]? = l[j]? := by
  induction l generalizing i j with
  | nil => simp
  | cons x xs ih =>
    cases i with
    | zero =>
      cases j with
      | zero => exact absurd rfl h
      | succ m => simp
    | succ n =>
      cases j with
      | zero => simp
      | succ m => simpa using ih n m (by omega)

theorem set_get?_self {α : Type} (l : List α) (i : Nat) (a : α)
    (h : l[i]? = some a) : l.set i a = l := by
  induction l generalizing i with
  | nil => rfl
  | cons x xs ih =>
    cases i with
    | zero => simp at h; simp [h]
    | succ n => simp at h; simp [ih n h]

theorem get?_concat_self {α : Type} (l : List α) (b : α) :
    (l ++ [b])[l.length]? = some b := by
  induction l with
  | nil => rfl
  | cons x xs ih => simp [ih]

theorem get?_append_left {α : Type} (l l2 : List α) (i : Nat)
    (h : i < l.length) : (l ++ l2)[i]? = l[i]? := by
  induction l generalizing i with
  | nil => simp at h
  | cons x xs ih =>
    cases i with
    | zero => simp
    | succ n => simpa using ih n (by simpa using h)

/-! ## Lemmas about the named-element locator -/

theorem findNamed_lt_length {α : Type} {nm : String} {f : α → String}
    {l : List α} {i : Nat} (h : findNamed nm f l = some i) : i < l.length := by
  induction l generalizing i with
  | nil => simp [findNamed] at h
  | cons x xs ih =>
    by_cases hx : f x = nm
    · simp [findNamed, hx] at h
      simp [← h]
    · simp [findNamed, hx] at h
      obtain ⟨j, hj, rfl⟩ := h
      have := ih hj
      simpa using Nat.succ_lt_succ this

theorem findNamed_get {α : Type} {nm : String} {f : α → String}
    {l : List α} {i : Nat} (h : findNamed nm f l = some i) :
    ∃ a, l[i]? = some a ∧ f a = nm := by
  induction l generalizing i with
  | nil => simp [findNamed] at h
  | cons x xs ih =>
    by_cases hx : f x = nm
    · simp [findNamed, hx] at h
      subst h
      exact ⟨x, by simp, hx⟩
    · simp [findNamed, hx] at h
      obtain ⟨j, hj, rfl⟩ := h
      obtain ⟨a, ha, hfa⟩ := ih hj
      exact ⟨a, by simpa using ha, hfa⟩

theorem findNamed_set_same {α : Type} {nm : String} {f : α → String}
    {l : List α} {i : Nat} (h : findNamed nm f l = some i) (b : α)
    (hb : f b = nm) : findNamed nm f (l.set i b) = some i := by
  induction l generalizing i with
  | nil => simp [findNamed] at h
  | cons x xs ih =>
    by_cases hx : f x = nm
    · simp [findNamed, hx] at h
      subst h
      simp [List.set, findNamed, hb]
    · simp [findNamed, hx] at h
      obtain ⟨j, hj, rfl⟩ := h
      simp [List.set, findNamed, hx, ih hj]

theorem findNamed_set_other {α : Type} {nm : String} {f : α → String}
    {l : List α} {j : Nat} {a : α} (ha : l[j]? = some a)
    (hfa : f a ≠ nm) {b : α} (hfb : f b ≠ nm) :
    findNamed nm f (l.set j b) = findNamed nm f l := by
  induction l generalizing j with
  | nil => rfl
  | cons x xs ih =>
    cases j with
    | zero =>
      simp at ha
      subst ha
      simp [List.set, findNamed, hfa, hfb]
    | succ n =>
      simp at ha
      by_cases hx : f x = nm
      · simp [List.set, findNamed, hx]
      · simp [List.set, findNamed, hx, ih ha]

theorem findNamed_append_some {α : Type} {nm : String} {f : α → String}
    {l : List α} {i : Nat} (h : findNamed nm f l = some i) (l2 : List α) :
    findNamed nm f (l ++ l2) = some i := by
  induction l generalizing i with
  | nil => simp [findNamed] at h
  | cons x xs ih =>
    by_cases hx : f x = nm
    · simp [findNamed, hx] at h ⊢
      exact h
    · simp [findNamed, hx] at h ⊢
      obtain ⟨j, hj, rfl⟩ := h
      exact ⟨j, ih hj, rfl⟩

theorem findNamed_append_none {α : Type} {nm : String} {f : α → String}
    {l : List α} (h : findNamed nm f l = none) (l2 : List α) :
    findNamed nm f (l ++ l2) = (findNamed nm f l2).map (fun i => l.length + i) := by
  induction l with
  | nil => simp
  | cons x xs ih =>
    by_cases hx : f x = nm
    · simp [findNamed, hx] at h
    · simp [findNamed, hx] at h ⊢
      rw [ih h]
      cases findNamed nm f l2 with
      | none => rfl
      | some j => simp; omega

theorem findNamed_concat_same {α : Type} {nm : String} {f : α → String}
    {l : List α} (h : findNamed nm f l = none) {b : α} (hb : f b = nm) :
    findNamed nm f (l ++ [b]) = some l.length := by
  rw [findNamed_append_none h]
  simp [findNamed, hb]

theorem findNamed_concat_other {α : Type} {nm : String} {f : α → String}
    {l : List α} {b : α} (hb : f b ≠ nm) :
    findNamed nm f (l ++ [b]) = findNamed nm f l := by
  cases h : findNamed nm f l with
  | some i => exact findNamed_append_some h [b]
  | none => rw [findNamed_append_none h]; simp [findNamed, hb]

/-- The two located positions of differently-named elements differ. -/
theorem findNamed_ne_of_names {α : Type} {nm nm2 : String} {f : α → String}
    {l : List α} {i j : Nat} (hi : findNamed nm f l = some i)
    (hj : findNamed nm2 f l = some j) (hnm : nm ≠ nm2) : i ≠ j := by
  intro hij
  subst hij
  obtain ⟨a, ha, hfa⟩ := findNamed_get hi
  obtain ⟨b, hb, hfb⟩ := findNamed_get hj
  rw [ha] at hb
  cases hb
  exact hnm (hfa ▸ hfb ▸ rfl)

theorem removeNamed_of_none {α : Type} {nm : String} {f : α → String}
    {l : List α} (h : findNamed nm f l = none) : removeNamed nm f l = l := by
  simp [removeNamed, h]

/-! ## Lemmas about the argument-list codec -/

theorem splitFirstEq_of_no_eq {l : List Char} (h : '=' ∉ l) :
    splitFirstEq l = (l, none) := by
  induction l with
  | nil => rfl
  | cons c cs ih =>
    have hc : ¬ c = '=' := fun hcc => h (hcc ▸ List.mem_cons_self c cs)
    have hcs : '=' ∉ cs := fun hmem => h (List.mem_cons_of_mem c hmem)
    simp [splitFirstEq, hc, ih hcs]

theorem splitFirstEq_append {k v : List Char} (h : '=' ∉ k) :
    splitFirstEq (k ++ '=' :: v) = (k, some v) := by
  induction k with
  | nil => simp [splitFirstEq]
  | cons c cs ih =>
    have hc : ¬ c = '=' := fun hcc => h (hcc ▸ List.mem_cons_self c cs)
    have hcs : '=' ∉ cs := fun hmem => h (List.mem_cons_of_mem c hmem)
    simp [splitFirstEq, hc, ih hcs]

theorem splitFirstEq_fst_no_eq (l : List Char) : '=' ∉ (splitFirstEq l).1 := by
  induction l with
  | nil => simp [splitFirstEq]
  | cons c cs ih =>
    by_cases hc : c = '='
    · simp [splitFirstEq, hc]
    · simp only [splitFirstEq, if_neg hc, List.mem_cons, not_or]
      refine ⟨fun hcc => hc hcc.symm, ih⟩

theorem string_mk_data (s : String) : String.mk s.data = s := rfl

theorem string_data_append (a b : String) : (a ++ b).data = a.data ++ b.data := rfl

theorem decodeArg_key_no_eq (arg : String) : '=' ∉ (decodeArg arg).1.data :=
  splitFirstEq_fst_no_eq arg.data

theorem decodeArg_encodeArg {p : String × Option String}
    (h : '=' ∉ p.1.data) : decodeArg (encodeArg p) = p := by
  obtain ⟨k, v⟩ := p
  cases v with
  | none =>
    simp [encodeArg, decodeArg, splitFirstEq_of_no_eq h]
  | some v =>
    have hdata : (k ++ "=" ++ v).data = k.data ++ '=' :: v.data := by
      rw [string_data_append, string_data_append, List.append_assoc]
      rfl
    simp [encodeArg, decodeArg, hdata, splitFirstEq_append h]

theorem find?_concat {α : Type} (l : List α) (x : α) (q : α → Bool) :
    (l ++ [x]).find? q =
      match l.find? q with
      | some r => some r
      | none => if q x then some x else none := by
  induction l with
  | nil => cases hqx : q x <;> simp [List.find?, hqx]
  | cons y ys ih =>
    cases hy : q y <;> simp [List.find?, hy, ih]

theorem find?_map_overwrite_self (m : List (String × Option String))
    (k : String) (v : Option String) :
    (m.map (fun p => if p.1 = k then (k, v) else p)).find? (fun p => p.1 = k)
      = (m.find? (fun p => p.1 = k)).map (fun _ => (k, v)) := by
  induction m with
  | nil => rfl
  | cons p m ih =>
    by_cases hp : p.1 = k
    · simp [List.find?, hp]
    · simp [List.find?, hp, ih]

theorem find?_map_overwrite_other (m : List (String × Option String))
    (k k2 : String) (v : Option String) (hne : k2 ≠ k) :
    (m.map (fun p => if p.1 = k then (k, v) else p)).find? (fun p => p.1 = k2)
      = m.find? (fun p => p.1 = k2) := by
  induction m with
  | nil => rfl
  | cons p m ih =>
    by_cases hp : p.1 = k
    · have hp2 : ¬ p.1 = k2 := fun hc => hne (hc ▸ hp)
      have hk2 : ¬ (k = k2) := fun hc => hne hc.symm
      simp [List.find?, hp, hp2, hk2, ih]
    · by_cases hp2 : p.1 = k2
      · simp [List.find?, hp, hp2, hne]
      · simp [List.find?, hp, hp2, ih]

theorem argsLookup_setFlag (m : List (String × Option String))
    (k k2 : String) (v : Option String) :
    argsLookup (argsSetFlag m k v) k2 =
      if k2 = k then some v else argsLookup m k2 := by
  by_cases hany : m.any (fun p => p.1 = k)
  · simp only [argsSetFlag, if_pos hany]
    by_cases hk : k2 = k
    · subst hk
      simp only [argsLookup, find?_map_overwrite_self]
      obtain ⟨p, hp, hpk⟩ := List.any_eq_true.mp hany
      have : (m.find? (fun p => p.1 = k2)).isSome := by
        rw [List.find?_isSome]
        exact ⟨p, hp, hpk⟩
      obtain ⟨r, hr⟩ := Option.isSome_iff_exists.mp this
      simp [hr]
    · simp [argsLookup, find?_map_overwrite_other m k k2 v hk, hk]
  · simp only [argsSetFlag, if_neg hany]
    have hnone : m.find? (fun p => p.1 = k) = none := by
      rw [List.find?_eq_none]
      intro p hp hpk
      exact hany (List.any_eq_true.mpr ⟨p, hp, hpk⟩)
    by_cases hk : k2 = k
    · subst hk
      simp [argsLookup, find?_concat, hnone]
    · have hlast : ¬ ((k, v).1 = k2) := fun hc => hk hc.symm
      simp [argsLookup, find?_concat, hlast, hk]

theorem keys_map_overwrite (m : List (String × Option String)) (k : String)
    (v : Option String) :
    (m.map (fun p => if p.1 = k then (k, v) else p)).map Prod.fst
      = m.map Prod.fst := by
  induction m with
  | nil => rfl
  | cons p m ih =>
    by_cases hp : p.1 = k
    · simp [hp, ih]
    · simp [hp, ih]

theorem uniqKeys_setFlag {m : List (String × Option String)}
    (hm : (m.map Prod.fst).Nodup) (k : String) (v : Option String) :
    ((argsSetFlag m k v).map Prod.fst).Nodup := by
  by_cases hany : m.any (fun p => p.1 = k)
  · simp only [argsSetFlag, if_pos hany, keys_map_overwrite]
    exact hm
  · simp only [argsSetFlag, if_neg hany, List.map_append, List.map_cons,
      List.map_nil]
    refine hm.append (List.nodup_singleton _) ?_
    rw [List.disjoint_singleton]
    intro hk
    obtain ⟨p, hp, hpk⟩ := List.mem_map.mp hk
    simp only [List.any_eq_true, not_exists] at hany
    exact hany p ⟨hp, by simp [hpk]⟩

theorem noEqKeys_setFlag {m : List (String × Option String)}
    (hm : ∀ p ∈ m, '=' ∉ p.1.data) {k : String} (hk : '=' ∉ k.data)
    (v : Option String) : ∀ p ∈ argsSetFlag m k v, '=' ∉ p.1.data := by
  intro p hp
  by_cases hany : m.any (fun q => q.1 = k)
  · simp only [argsSetFlag, if_pos hany, List.mem_map] at hp
    obtain ⟨q, hq, hfq⟩ := hp
    by_cases hqk : q.1 = k
    · rw [← hfq]
      simpa [hqk] using hk
    · rw [← hfq]
      simpa [hqk] using hm q hq
  · simp only [argsSetFlag, if_neg hany, List.mem_append, List.mem_singleton] at hp
    rcases hp with hp | hp
    · exact hm p hp
    · rw [hp]
      exact hk

theorem goodMap_foldl (args : List String) :
    ∀ m : List (String × Option String),
      (m.map Prod.fst).Nodup → (∀ p ∈ m, '=' ∉ p.1.data) →
      (((args.foldl (fun m a => argsSetFlag m (decodeArg a).1 (decodeArg a).2)
          m)).map Prod.fst).Nodup ∧
        ∀ p ∈ args.foldl (fun m a => argsSetFlag m (decodeArg a).1 (decodeArg a).2) m,
          '=' ∉ p.1.data := by
  induction args with
  | nil =>
    intro m h1 h2
    exact ⟨h1, h2⟩
  | cons a args ih =>
    intro m h1 h2
    exact ih _ (uniqKeys_setFlag h1 _ _)
      (noEqKeys_setFlag h2 (decodeArg_key_no_eq a) _)

theorem goodMap_ArgsFromSliceToMap (args : List String) :
    ((ArgsFromSliceToMap args).map Prod.fst).Nodup ∧
      ∀ p ∈ ArgsFromSliceToMap args, '=' ∉ p.1.data :=
  goodMap_foldl args [] (by simp) (by simp)

theorem foldl_decode_encode (m : List (String × Option String)) :
    ∀ acc : List (String × Option String),
      (m.map Prod.fst).Nodup → (∀ p ∈ m, '=' ∉ p.1.data) →
      (∀ p ∈ m, ∀ q ∈ acc, ¬ q.1 = p.1) →
      (ArgsFromMapToSlice m).foldl
        (fun a tok => argsSetFlag a (decodeArg tok).1 (decodeArg tok).2) acc
        = acc ++ m := by
  induction m with
  | nil =>
    intro acc _ _ _
    simp [ArgsFromMapToSlice]
  | cons p m ih =>
    intro acc h1 h2 h3
    have hdec : decodeArg (encodeArg p) = p :=
      decodeArg_encodeArg (h2 p (List.mem_cons_self p m))
    have hany : acc.any (fun q => q.1 = p.1) = false := by
      rw [List.any_eq_false]
      intro q hq
      simpa using h3 p (List.mem_cons_self p m) q hq
    have hstep :
        argsSetFlag acc (decodeArg (encodeArg p)).1 (decodeArg (encodeArg p)).2
          = acc ++ [p] := by
      rw [hdec]
      simp [argsSetFlag, hany]
    have hkey : p.1 ∉ m.map Prod.fst := (List.nodup_cons.mp (by simpa using h1)).1
    rw [show ArgsFromMapToSlice (p :: m) = encodeArg p :: ArgsFromMapToSlice m from rfl,
      List.foldl_cons, hstep,
      ih (acc ++ [p]) (List.Nodup.of_cons (by simpa using h1))
        (fun q hq => h2 q (List.mem_cons_of_mem p hq)) ?_]
    · simp
    · intro p2 hp2 q hq
      rcases List.mem_append.mp hq with hq | hq
      · exact h3 p2 (List.mem_cons_of_mem p hp2) q hq
      · rw [List.mem_singleton.mp hq]
        intro hc
        exact hkey (hc ▸ List.mem_map_of_mem Prod.fst hp2)

theorem args_roundtrip {m : List (String × Option String)}
    (h1 : (m.map Prod.fst).Nodup) (h2 : ∀ p ∈ m, '=' ∉ p.1.data) :
    ArgsFromSliceToMap (ArgsFromMapToSlice m) = m := by
  have h := foldl_decode_encode m [] h1 h2 (by intro p hp q hq; simp at hq)
  simpa [ArgsFromSliceToMap] using h

theorem argsSetFlag_idem (m : List (String × Option String)) (k : String)
    (v : Option String) :
    argsSetFlag (argsSetFlag m k v) k v = argsSetFlag m k v := by
  by_cases hany : m.any (fun p => p.1 = k)
  · obtain ⟨p, hp, hpk⟩ := List.any_eq_true.mp hany
    have hany2 : (m.map (fun p => if p.1 = k then (k, v) else p)).any
        (fun p => p.1 = k) = true := by
      refine List.any_eq_true.mpr ⟨(k, v), ?_, by simp⟩
      refine List.mem_map.mpr ⟨p, hp, ?_⟩
      simp only [decide_eq_true_eq] at hpk
      simp [hpk]
    simp only [argsSetFlag, if_pos hany, hany2, if_pos, List.map_map]
    apply List.map_congr_left
    intro q hq
    by_cases hqk : q.1 = k <;> simp [Function.comp, hqk]
  · have hany2 : (m ++ [(k, v)]).any (fun p => p.1 = k) = true :=
      List.any_eq_true.mpr ⟨(k, v), by simp, by simp⟩
    simp only [argsSetFlag, if_neg hany, hany2, if_pos, List.map_append]
    simp only [List.any_eq_true, not_exists] at hany
    congr 1
    · have hid : m.map (fun p => if p.1 = k then (k, v) else p) = m.map id := by
        apply List.map_congr_left
        intro q hq
        have hqk : ¬ q.1 = k := fun hc => hany q ⟨hq, by simp [hc]⟩
        simp [hqk]
      rw [hid, List.map_id]
    · simp

theorem roundtrip_setFlag_decode (args : List String) {k : String}
    (hk : '=' ∉ k.data) (v : Option String) :
    ArgsFromSliceToMap (ArgsFromMapToSlice (argsSetFlag (ArgsFromSliceToMap args) k v))
      = argsSetFlag (ArgsFromSliceToMap args) k v := by
  obtain ⟨h1, h2⟩ := goodMap_ArgsFromSliceToMap args
  exact args_roundtrip (uniqKeys_setFlag h1 k v) (noEqKeys_setFlag h2 hk v)

/-! ## Canonical-slot lemmas for the named patch helpers -/

namespace Konnectivity

theorem setNamedMount_canon (nm : String) (ro : Bool) (mp : String)
    (ms : List VolumeMount) :
    ∃ j m, findNamed nm VolumeMount.name (setNamedMount nm ro mp ms) = some j ∧
      (setNamedMount nm ro mp ms)[j]? = some m ∧
      m.name = nm ∧ m.readOnly = ro ∧ m.mountPath = mp := by
  cases hfind : findNamed nm VolumeMount.name ms with
  | some j =>
    have hlt := findNamed_lt_length hfind
    simp only [setNamedMount, hfind]
    exact ⟨j, _, findNamed_set_same hfind _ rfl, get?_set_self ms j _ hlt,
      rfl, rfl, rfl⟩
  | none =>
    simp only [setNamedMount, hfind]
    exact ⟨ms.length, _, findNamed_concat_same hfind rfl,
      get?_concat_self ms _, rfl, rfl, rfl⟩

theorem setNamedMount_canon_other {nm : String} {ro : Bool} {mp : String}
    {ms : List VolumeMount}
    (h : ∃ j m, findNamed nm VolumeMount.name ms = some j ∧ ms[j]? = some m ∧
      m.name = nm ∧ m.readOnly = ro ∧ m.mountPath = mp)
    (nm2 : String) (hne : nm2 ≠ nm) (ro2 : Bool) (mp2 : String) :
    ∃ j m, findNamed nm VolumeMount.name (setNamedMount nm2 ro2 mp2 ms) = some j ∧
      (setNamedMount nm2 ro2 mp2 ms)[j]? = some m ∧
      m.name = nm ∧ m.readOnly = ro ∧ m.mountPath = mp := by
  obtain ⟨j, m, hfind, hget, h1, h2, h3⟩ := h
  cases hfind2 : findNamed nm2 VolumeMount.name ms with
  | some j2 =>
    obtain ⟨a, ha, hfa⟩ := findNamed_get hfind2
    have hja : a.name ≠ nm := by
      rw [hfa]
      exact hne
    have hjj : j2 ≠ j := by
      intro hc
      subst hc
      rw [hget] at ha
      cases ha
      exact hne (by rw [← hfa, h1])
    simp only [setNamedMount, hfind2]
    refine ⟨j, m, ?_, ?_, h1, h2, h3⟩
    · have hbname :
        ({ ms.getD j2 {} with name := nm2, readOnly := ro2, mountPath := mp2 } :
          VolumeMount).name ≠ nm := hne
      rw [findNamed_set_other ha hja hbname]
      exact hfind
    · rw [get?_set_ne ms j2 j _ hjj]
      exact hget
  | none =>
    simp only [setNamedMount, hfind2]
    refine ⟨j, m, findNamed_append_some hfind _, ?_, h1, h2, h3⟩
    rw [get?_append_left ms _ j (findNamed_lt_length hfind)]
    exact hget

theorem setNamedMount_of_canon {nm : String} {ro : Bool} {mp : String}
    {ms : List VolumeMount}
    (h : ∃ j m, findNamed nm VolumeMount.name ms = some j ∧ ms[j]? = some m ∧
      m.name = nm ∧ m.readOnly = ro ∧ m.mountPath = mp) :
    setNamedMount nm ro mp ms = ms := by
  obtain ⟨j, m, hfind, hget, h1, h2, h3⟩ := h
  have hgetD : ms.getD j {} = m := by
    rw [List.getD, List.get?_eq_getElem?, hget]
    rfl
  have hb : { ms.getD j {} with name := nm, readOnly := ro, mountPath := mp } = m := by
    rw [hgetD]
    cases m
    simp only at h1 h2 h3
    simp [h1, h2, h3]
  simp only [setNamedMount, hfind, hb]
  exact set_get?_self ms j m hget

theorem setNamedVolume_canon (nm : String) (src : VolumeSource)
    (vs : List Volume) :
    ∃ j, findNamed nm Volume.name (setNamedVolume nm src vs) = some j ∧
      (setNamedVolume nm src vs)[j]? = some { name := nm, source := src } := by
  cases hfind : findNamed nm Volume.name vs with
  | some j =>
    have hlt := findNamed_lt_length hfind
    simp only [setNamedVolume, hfind]
    exact ⟨j, findNamed_set_same hfind _ rfl, get?_set_self vs j _ hlt⟩
  | none =>
    simp only [setNamedVolume, hfind]
    exact ⟨vs.length, findNamed_concat_same hfind rfl, get?_concat_self vs _⟩

theorem setNamedVolume_canon_other {nm : String} {src : VolumeSource}
    {vs : List Volume}
    (h : ∃ j, findNamed nm Volume.name vs = some j ∧
      vs[j]? = some { name := nm, source := src })
    (nm2 : String) (hne : nm2 ≠ nm) (src2 : VolumeSource) :
    ∃ j, findNamed nm Volume.name (setNamedVolume nm2 src2 vs) = some j ∧
      (setNamedVolume nm2 src2 vs)[j]? = some { name := nm, source := src } := by
  obtain ⟨j, hfind, hget⟩ := h
  cases hfind2 : findNamed nm2 Volume.name vs with
  | some j2 =>
    obtain ⟨a, ha, hfa⟩ := findNamed_get hfind2
    have hja : a.name ≠ nm := by
      rw [hfa]
      exact hne
    have hjj : j2 ≠ j := by
      intro hc
      subst hc
      rw [hget] at ha
      cases ha
      exact hne hfa.symm
    simp only [setNamedVolume, hfind2]
    refine ⟨j, ?_, ?_⟩
    · have hbname : ({ name := nm2, source := src2 } : Volume).name ≠ nm := hne
      rw [findNamed_set_other ha hja hbname]
      exact hfind
    · rw [get?_set_ne vs j2 j _ hjj]
      exact hget
  | none =>
    simp only [setNamedVolume, hfind2]
    refine ⟨j, findNamed_append_some hfind _, ?_⟩
    rw [get?_append_left vs _ j (findNamed_lt_length hfind)]
    exact hget

theorem setNamedVolume_of_canon {nm : String} {src : VolumeSource}
    {vs : List Volume}
    (h : ∃ j, findNamed nm Volume.name vs = some j ∧
      vs[j]? = some { name := nm, source := src }) :
    setNamedVolume nm src vs = vs := by
  obtain ⟨j, hfind, hget⟩ := h
  simp only [setNamedVolume, hfind]
  exact set_get?_self vs j _ hget

theorem syncedServerContainer_idem (k : KonnectivitySpec) (rep : Int)
    (c : Container) :
    syncedServerContainer k rep (syncedServerContainer k rep c)
      = syncedServerContainer k rep c := rfl

theorem syncedServerContainer_name (k : KonnectivitySpec) (rep : Int)
    (c : Container) :
    (syncedServerContainer k rep c).name = konnectivityServerName := rfl

theorem ArgsAddFlagValue_idem (m : List (String × Option String))
    (k v : String) :
    ArgsAddFlagValue (ArgsAddFlagValue m k v) k v = ArgsAddFlagValue m k v :=
  argsSetFlag_idem m k (some v)

theorem roundtrip_AddFlag_decode (args : List String) {k : String}
    (hk : '=' ∉ k.data) (v : String) :
    ArgsFromSliceToMap (ArgsFromMapToSlice (ArgsAddFlagValue (ArgsFromSliceToMap args) k v))
      = ArgsAddFlagValue (ArgsFromSliceToMap args) k v :=
  roundtrip_setFlag_decode args hk (some v)

theorem patchedKASContainer_name (c : Container) :
    (patchedKASContainer c).name = c.name := rfl

theorem patchedKASContainer_idem (c : Container) :
    patchedKASContainer (patchedKASContainer c) = patchedKASContainer c := by
  have hargs : (patchedKASContainer c).args
      = ArgsFromMapToSlice (ArgsAddFlagValue (ArgsFromSliceToMap c.args)
          "--egress-selector-config-file"
          konnectivityEgressSelectorConfigurationPath) := rfl
  have hmounts : (patchedKASContainer c).volumeMounts
      = setNamedMount egressSelectorConfigurationVolume false
          "/etc/kubernetes/konnectivity/configurations"
          (setNamedMount konnectivityUDSVolume false konnectivityServerPath
            c.volumeMounts) := rfl
  have hX : ArgsFromMapToSlice (ArgsAddFlagValue
        (ArgsFromSliceToMap (patchedKASContainer c).args)
        "--egress-selector-config-file"
        konnectivityEgressSelectorConfigurationPath)
      = (patchedKASContainer c).args := by
    rw [hargs, roundtrip_AddFlag_decode c.args (by decide) _, ArgsAddFlagValue_idem]
  have hY : setNamedMount egressSelectorConfigurationVolume false
        "/etc/kubernetes/konnectivity/configurations"
        (setNamedMount konnectivityUDSVolume false konnectivityServerPath
          (patchedKASContainer c).volumeMounts)
      = (patchedKASContainer c).volumeMounts := by
    rw [hmounts]
    have c1 := setNamedMount_canon konnectivityUDSVolume false
      konnectivityServerPath c.volumeMounts
    have c2 := setNamedMount_canon_other c1 egressSelectorConfigurationVolume
      (by decide) false "/etc/kubernetes/konnectivity/configurations"
    rw [setNamedMount_of_canon c2]
    exact setNamedMount_of_canon (setNamedMount_canon
      egressSelectorConfigurationVolume false
      "/etc/kubernetes/konnectivity/configurations" _)
  calc patchedKASContainer (patchedKASContainer c)
      = { patchedKASContainer c with
          args := (ArgsFromMapToSlice (ArgsAddFlagValue
            (ArgsFromSliceToMap (patchedKASContainer c).args)
            "--egress-selector-config-file"
            konnectivityEgressSelectorConfigurationPath))
          volumeMounts := (setNamedMount egressSelectorConfigurationVolume false
            "/etc/kubernetes/konnectivity/configurations"
            (setNamedMount konnectivityUDSVolume false konnectivityServerPath
              (patchedKASContainer c).volumeMounts)) } := rfl
    _ = { patchedKASContainer c with
          args := (patchedKASContainer c).args
          volumeMounts := (patchedKASContainer c).volumeMounts } := by rw [hX, hY]
    _ = patchedKASContainer c := rfl

theorem patchKAS_some {d : Deployment} {j : Nat}
    (hfind : findNamed "kube-apiserver" Container.name d.containers = some j) :
    patchKubeAPIServerContainer d = .ok { d with containers :=
      (d.containers.set j (patchedKASContainer (d.containers.getD j {}))) } := by
  simp [patchKubeAPIServerContainer, hfind]

theorem patchKAS_none {d : Deployment}
    (hfind : findNamed "kube-apiserver" Container.name d.containers = none) :
    patchKubeAPIServerContainer d
      = .error "missing kube-apiserver container, cannot patch arguments" := by
  simp [patchKubeAPIServerContainer, hfind]

theorem syncContainer_canon (tcp : TenantControlPlane) (k : KonnectivitySpec)
    (d : Deployment) :
    ∃ i c, findNamed konnectivityServerName Container.name
        (syncContainer tcp k d).containers = some i ∧
      (syncContainer tcp k d).containers[i]? = some c ∧
      syncedServerContainer k tcp.spec.replicas c = c := by
  cases hfind : findNamed konnectivityServerName Container.name d.containers with
  | some i =>
    have hlt := findNamed_lt_length hfind
    simp only [syncContainer, hfind]
    exact ⟨i, _, findNamed_set_same hfind _ rfl, get?_set_self _ i _ hlt,
      syncedServerContainer_idem k tcp.spec.replicas _⟩
  | none =>
    simp only [syncContainer, hfind]
    exact ⟨d.containers.length, _, findNamed_concat_same hfind rfl,
      get?_concat_self _ _, syncedServerContainer_idem k tcp.spec.replicas _⟩

theorem syncContainer_of_canon (tcp : TenantControlPlane)
    (k : KonnectivitySpec) (d : Deployment)
    (h : ∃ i c, findNamed konnectivityServerName Container.name d.containers = some i ∧
      d.containers[i]? = some c ∧ syncedServerContainer k tcp.spec.replicas c = c) :
    syncContainer tcp k d = d := by
  obtain ⟨i, c, hfind, hget, hidem⟩ := h
  have hgetD : d.containers.getD i {} = c := by
    rw [List.getD, List.get?_eq_getElem?, hget]
    rfl
  simp only [syncContainer, hfind, hgetD, hidem]
  rw [set_get?_self _ i c hget]

theorem syncContainer_volumes (tcp : TenantControlPlane)
    (k : KonnectivitySpec) (d : Deployment) :
    (syncContainer tcp k d).volumes = d.volumes := by
  cases hfind : findNamed konnectivityServerName Container.name d.containers with
  | some i => simp [syncContainer, hfind]
  | none => simp [syncContainer, hfind]

theorem findNamed_syncContainer (tcp : TenantControlPlane)
    (k : KonnectivitySpec) (d : Deployment) {nm : String}
    (hnm : nm ≠ konnectivityServerName) :
    findNamed nm Container.name (syncContainer tcp k d).containers
      = findNamed nm Container.name d.containers := by
  cases hfind : findNamed konnectivityServerName Container.name d.containers with
  | some i =>
    obtain ⟨a, ha, hfa⟩ := findNamed_get hfind
    have hja : a.name ≠ nm := by
      rw [hfa]
      exact fun hc => hnm hc.symm
    have hbn : (syncedServerContainer k tcp.spec.replicas
        (d.containers.getD i {})).name ≠ nm := by
      rw [syncedServerContainer_name]
      exact fun hc => hnm hc.symm
    simp only [syncContainer, hfind]
    exact findNamed_set_other ha hja hbn
  | none =>
    have hbn : (syncedServerContainer k tcp.spec.replicas {}).name ≠ nm := by
      rw [syncedServerContainer_name]
      exact fun hc => hnm hc.symm
    simp only [syncContainer, hfind]
    exact findNamed_concat_other hbn

theorem syncVolumes_containers (tcp : TenantControlPlane) (d : Deployment) :
    (syncVolumes tcp d).containers = d.containers := rfl

theorem syncVolumes_of_canon (tcp : TenantControlPlane) (d : Deployment)
    (h1 : ∃ j, findNamed konnectivityUDSVolume Volume.name d.volumes = some j ∧
      d.volumes[j]? = some { name := konnectivityUDSVolume, source := .emptyDir "Memory" })
    (h2 : ∃ j, findNamed egressSelectorConfigurationVolume Volume.name d.volumes = some j ∧
      d.volumes[j]? = some { name := egressSelectorConfigurationVolume, source := .configMap tcp.status.konnectivity.configMapName 420 })
    (h3 : ∃ j, findNamed konnectivityServerKubeconfigVolume Volume.name d.volumes = some j ∧
      d.volumes[j]? = some { name := konnectivityServerKubeconfigVolume, source := .secret tcp.status.konnectivity.kubeconfigSecretName 420 }) :
    syncVolumes tcp d = d := by
  simp only [syncVolumes]
  rw [setNamedVolume_of_canon h1, setNamedVolume_of_canon h2,
    setNamedVolume_of_canon h3]

theorem syncVolumes_canon (tcp : TenantControlPlane) (d : Deployment) :
    (∃ j, findNamed konnectivityUDSVolume Volume.name (syncVolumes tcp d).volumes = some j ∧
      (syncVolumes tcp d).volumes[j]? = some { name := konnectivityUDSVolume, source := .emptyDir "Memory" }) ∧
    (∃ j, findNamed egressSelectorConfigurationVolume Volume.name (syncVolumes tcp d).volumes = some j ∧
      (syncVolumes tcp d).volumes[j]? = some { name := egressSelectorConfigurationVolume, source := .configMap tcp.status.konnectivity.configMapName 420 }) ∧
    (∃ j, findNamed konnectivityServerKubeconfigVolume Volume.name (syncVolumes tcp d).volumes = some j ∧
      (syncVolumes tcp d).volumes[j]? = some { name := konnectivityServerKubeconfigVolume, source := .secret tcp.status.konnectivity.kubeconfigSecretName 420 }) := by
  refine ⟨?_, ?_, ?_⟩
  · have c1 := setNamedVolume_canon konnectivityUDSVolume (.emptyDir "Memory") d.volumes
    have c2 := setNamedVolume_canon_other c1 egressSelectorConfigurationVolume
      (by decide) (.configMap tcp.status.konnectivity.configMapName 420)
    exact setNamedVolume_canon_other c2 konnectivityServerKubeconfigVolume
      (by decide) (.secret tcp.status.konnectivity.kubeconfigSecretName 420)
  · have c1 := setNamedVolume_canon egressSelectorConfigurationVolume
      (.configMap tcp.status.konnectivity.configMapName 420)
      (setNamedVolume konnectivityUDSVolume (.emptyDir "Memory") d.volumes)
    exact setNamedVolume_canon_other c1 konnectivityServerKubeconfigVolume
      (by decide) (.secret tcp.status.konnectivity.kubeconfigSecretName 420)
  · exact setNamedVolume_canon konnectivityServerKubeconfigVolume
      (.secret tcp.status.konnectivity.kubeconfigSecretName 420) _

theorem deploymentMutate_ok_idem {tcp : TenantControlPlane} {d d2 : Deployment}
    (h : deploymentMutate tcp d = .ok d2) :
    deploymentMutate tcp d2 = .ok d2 := by
  cases htcp : tcp.spec.konnectivity with
  | none =>
    simp only [deploymentMutate, htcp] at h ⊢
  | some k =>
    simp only [deploymentMutate, htcp] at h ⊢
    by_cases hlen : d.containers.length = 0
    · rw [if_pos hlen] at h
      exact absurd h (by simp)
    · rw [if_neg hlen] at h
      cases hfindJ : findNamed "kube-apiserver" Container.name
          (syncContainer tcp k d).containers with
      | none =>
        rw [patchKAS_none hfindJ] at h
        simp at h
      | some j =>
        rw [patchKAS_some hfindJ] at h
        simp only [] at h
        -- h : .ok (syncVolumes tcp e2) = .ok d2 with e2 spelled out
        injection h with h
        obtain ⟨aj, haj, hajn⟩ := findNamed_get hfindJ
        obtain ⟨i, c, hfi, hgi, hSc⟩ := syncContainer_canon tcp k d
        have hcn : c.name = konnectivityServerName := by
          rw [← hSc, syncedServerContainer_name]
        have hajn2 : aj.name ≠ konnectivityServerName := by
          rw [hajn]
          decide
        have hpcn : (patchedKASContainer ((syncContainer tcp k d).containers.getD j {})).name
            = "kube-apiserver" := by
          rw [patchedKASContainer_name]
          have : (syncContainer tcp k d).containers.getD j {} = aj := by
            rw [List.getD, List.get?_eq_getElem?, haj]
            rfl
          rw [this, hajn]
        have hij : j ≠ i := by
          intro hc
          subst hc
          rw [hgi] at haj
          cases haj
          exact hajn2 hcn
        have hd2c : d2.containers
            = (syncContainer tcp k d).containers.set j
              (patchedKASContainer ((syncContainer tcp k d).containers.getD j {})) := by
          rw [← h, syncVolumes_containers]
        -- sidecar canon on d2
        have hfi2 : findNamed konnectivityServerName Container.name d2.containers = some i := by
          rw [hd2c]
          have hpcn2 : (patchedKASContainer ((syncContainer tcp k d).containers.getD j {})).name
              ≠ konnectivityServerName := by
            rw [hpcn]
            decide
          rw [findNamed_set_other haj hajn2 hpcn2]
          exact hfi
        have hgi2 : d2.containers[i]? = some c := by
          rw [hd2c, get?_set_ne _ j i _ hij]
          exact hgi
        have hsync2 : syncContainer tcp k d2 = d2 :=
          syncContainer_of_canon tcp k d2 ⟨i, c, hfi2, hgi2, hSc⟩
        -- kube-apiserver canon on d2
        have hfj2 : findNamed "kube-apiserver" Container.name d2.containers = some j := by
          rw [hd2c]
          exact findNamed_set_same hfindJ _ hpcn
        have hgj2 : d2.containers[j]?
            = some (patchedKASContainer ((syncContainer tcp k d).containers.getD j {})) := by
          rw [hd2c]
          exact get?_set_self _ j _ (findNamed_lt_length hfindJ)
        have hlen2 : ¬ d2.containers.length = 0 := by
          have := findNamed_lt_length hfj2
          omega
        have hpatch2 : patchKubeAPIServerContainer d2 = .ok d2 := by
          rw [patchKAS_some hfj2]
          have hgetD2 : d2.containers.getD j {}
              = patchedKASContainer ((syncContainer tcp k d).containers.getD j {}) := by
            rw [List.getD, List.get?_eq_getElem?, hgj2]
            rfl
          rw [hgetD2, patchedKASContainer_idem, set_get?_self _ j _ hgj2]
        have hvol2 : syncVolumes tcp d2 = d2 := by
          have hcanon := syncVolumes_canon tcp
            { containers := (syncContainer tcp k d).containers.set j
                (patchedKASContainer ((syncContainer tcp k d).containers.getD j {}))
              volumes := (syncContainer tcp k d).volumes }
          have hd2 : d2 = syncVolumes tcp
            { containers := (syncContainer tcp k d).containers.set j
                (patchedKASContainer ((syncContainer tcp k d).containers.getD j {}))
              volumes := (syncContainer tcp k d).volumes } := h.symm
          exact syncVolumes_of_canon tcp d2
            (hd2 ▸ hcanon.1) (hd2 ▸ hcanon.2.1) (hd2 ▸ hcanon.2.2)
        rw [if_neg hlen2, hsync2, hpatch2]
        simp only []
        rw [hvol2]

theorem deploymentMutate_ok_iff {tcp : TenantControlPlane}
    {k : KonnectivitySpec} (hk : tcp.spec.konnectivity = some k)
    {d : Deployment} :
    (deploymentMutate tcp d).toOption.isSome
      = (findNamed "kube-apiserver" Container.name d.containers).isSome := by
  simp only [deploymentMutate, hk]
  by_cases hlen : d.containers.length = 0
  · have hnil : d.containers = [] := List.length_eq_zero.mp hlen
    rw [if_pos hlen, hnil]
    simp [findNamed, Except.toOption]
  · rw [if_neg hlen]
    have hfk := @findNamed_syncContainer tcp k d "kube-apiserver" (by decide)
    cases hfind : findNamed "kube-apiserver" Container.name d.containers with
    | none =>
      rw [patchKAS_none (hfk.trans hfind)]
      simp [Except.toOption]
    | some j =>
      rw [patchKAS_some (hfk.trans hfind)]
      simp [Except.toOption]

theorem cleanUpMutate_noop {d : Deployment}
    (hsc : findNamed konnectivityServerName Container.name d.containers = none)
    (hkas : ∀ j c, findNamed "kube-apiserver" Container.name d.containers = some j →
      d.containers[j]? = some c →
      (ArgsFromSliceToMap c.args).any (fun p => p.1 = "--egress-selector-config-file") = false ∧
      findNamed konnectivityUDSVolume VolumeMount.name c.volumeMounts = none ∧
      findNamed egressSelectorConfigurationVolume VolumeMount.name c.volumeMounts = none ∧
      findNamed konnectivityServerKubeconfigVolume VolumeMount.name c.volumeMounts = none)
    (hv1 : findNamed konnectivityUDSVolume Volume.name d.volumes = none)
    (hv2 : findNamed egressSelectorConfigurationVolume Volume.name d.volumes = none) :
    cleanUpMutate d = d := by
  simp only [cleanUpMutate, removeNamed_of_none hsc]
  cases hfind : findNamed "kube-apiserver" Container.name d.containers with
  | none => simp [hfind]
  | some i =>
    obtain ⟨c, hget, hcn⟩ := findNamed_get hfind
    obtain ⟨hflag, hm1, hm2, hm3⟩ := hkas i c hfind hget
    have hgetD : d.containers.getD i {} = c := by
      rw [List.getD, List.get?_eq_getElem?, hget]
      rfl
    simp only [hfind, hgetD, ArgsRemoveFlag, hflag, Bool.false_eq_true, if_false,
      removeNamed_of_none hm1, removeNamed_of_none hm2, removeNamed_of_none hm3,
      removeNamed_of_none hv1, removeNamed_of_none hv2]
    rw [set_get?_self _ i c hget]

end Konnectivity

/-! ## The claims -/

/-- C1: the spec claims inject followed by remove restores the pre-injection
Deployment byte-for-byte. On a Deployment holding only the primary
`kube-apiserver` container, inject then remove restores the container list,
the primary container's arguments and volume mounts — but the pod volume
list still carries the `konnectivity-server-kubeconfig` volume, because
`syncVolumes` adds three volumes while `CleanUp` deletes only two
(`konnectivity-uds` and `egress-selector-configuration`). -/
theorem C1_inject_remove_leaves_kubeconfig_volume :
    (Konnectivity.deploymentMutate tcpEnabled dPrimaryOnly).map Konnectivity.cleanUpMutate
      = .ok { containers := dPrimaryOnly.containers
              volumes := [{ name := Konnectivity.konnectivityServerKubeconfigVolume
                            source := .secret "sec" 420 }] }
    ∧ (Konnectivity.deploymentMutate tcpEnabled dPrimaryOnly).map Konnectivity.cleanUpMutate
      ≠ .ok dPrimaryOnly := by
  constructor
  · rfl
  · intro h
    rw [show (Konnectivity.deploymentMutate tcpEnabled dPrimaryOnly).map
          Konnectivity.cleanUpMutate
        = Except.ok { containers := dPrimaryOnly.containers
                      volumes := [{ name := Konnectivity.konnectivityServerKubeconfigVolume
                                    source := .secret "sec" 420 }] } from rfl] at h
    injection h with h
    exact absurd (congrArg Deployment.volumes h) (by decide)

/-- C2: the datastore Config mutation preserves `DB_PASSWORD` exactly when
the stored checksum annotation matches the digest of the current payload,
and replaces it with the freshly generated random value when the annotation
is absent or stale. -/
theorem C2_checksum_gated_password (conn fresh : String)
    (tcp : TenantControlPlane) (s : Datastore.Secret) :
    (∀ h, mapLookup s.annotations Datastore.checksumKey = some h →
      h = CalculateMapChecksum s.data →
      (mapLookup (Datastore.configMutate conn fresh tcp s).data "DB_PASSWORD").getD ""
        = (mapLookup s.data "DB_PASSWORD").getD "") ∧
    (mapLookup s.annotations Datastore.checksumKey = none →
      mapLookup (Datastore.configMutate conn fresh tcp s).data "DB_PASSWORD"
        = some fresh) ∧
    (∀ h, mapLookup s.annotations Datastore.checksumKey = some h →
      h ≠ CalculateMapChecksum s.data →
      mapLookup (Datastore.configMutate conn fresh tcp s).data "DB_PASSWORD"
        = some fresh) := by
  refine ⟨?_, ?_, ?_⟩
  · intro h hann heq
    simp only [Datastore.configMutate]
    rw [hann]
    simp [heq, mapLookup, List.find?]
  · intro hann
    simp only [Datastore.configMutate]
    rw [hann]
    simp [mapLookup, List.find?]
  · intro h hann hne
    simp only [Datastore.configMutate]
    rw [hann]
    simp [hne, mapLookup, List.find?]

theorem C2_witness :
    ((mapLookup (Datastore.configMutate "conn" "fresh-uuid" tcpDisabled
        secretMatching).data "DB_PASSWORD").getD ""
      = (mapLookup secretMatching.data "DB_PASSWORD").getD "") ∧
    (mapLookup (Datastore.configMutate "conn" "fresh-uuid" tcpDisabled
        secretUnannotated).data "DB_PASSWORD" = some "fresh-uuid") ∧
    (mapLookup (Datastore.configMutate "conn" "fresh-uuid" tcpDisabled
        secretTampered).data "DB_PASSWORD" = some "fresh-uuid") :=
  ⟨(C2_checksum_gated_password "conn" "fresh-uuid" tcpDisabled secretMatching).1
      _ rfl rfl,
    (C2_checksum_gated_password "conn" "fresh-uuid" tcpDisabled secretUnannotated).2.1
      rfl,
    (C2_checksum_gated_password "conn" "fresh-uuid" tcpDisabled secretTampered).2.2
      _ rfl (by decide)⟩

/-- C3: for a Deployment containing a `kube-apiserver` container and a
tenant with the konnectivity add-on enabled, the inject mutation succeeds
and applying it a second time returns its own result unchanged — no
duplicate containers, volumes, volume mounts or flags. -/
theorem C3_inject_idempotent (tcp : TenantControlPlane)
    (k : KonnectivitySpec) (d : Deployment)
    (hk : tcp.spec.konnectivity = some k)
    (hkas : (findNamed "kube-apiserver" Container.name d.containers).isSome = true) :
    ∃ d2, Konnectivity.deploymentMutate tcp d = .ok d2 ∧
      Konnectivity.deploymentMutate tcp d2 = .ok d2 := by
  have hh := Konnectivity.deploymentMutate_ok_iff hk (d := d)
  rw [hkas] at hh
  cases hm : Konnectivity.deploymentMutate tcp d with
  | error e =>
    rw [hm] at hh
    simp [Except.toOption] at hh
  | ok d2 =>
    exact ⟨d2, rfl, Konnectivity.deploymentMutate_ok_idem hm⟩

theorem C3_witness :
    ∃ d2, Konnectivity.deploymentMutate tcpEnabled dUntouched = .ok d2 ∧
      Konnectivity.deploymentMutate tcpEnabled d2 = .ok d2 :=
  C3_inject_idempotent tcpEnabled _ dUntouched rfl (by decide)

/-- C4: with the konnectivity add-on enabled, the inject mutation errors
exactly when no `kube-apiserver` container exists (in particular on an empty
container list), and succeeds when one is present. -/
theorem C4_inject_requires_primary (tcp : TenantControlPlane)
    (k : KonnectivitySpec) (d : Deployment)
    (hk : tcp.spec.konnectivity = some k) :
    (findNamed "kube-apiserver" Container.name d.containers = none →
      ∃ e, Konnectivity.deploymentMutate tcp d = .error e) ∧
    (∀ i, findNamed "kube-apiserver" Container.name d.containers = some i →
      ∃ d2, Konnectivity.deploymentMutate tcp d = .ok d2) := by
  have hh := Konnectivity.deploymentMutate_ok_iff hk (d := d)
  constructor
  · intro hnone
    rw [hnone] at hh
    cases hm : Konnectivity.deploymentMutate tcp d with
    | ok d2 =>
      rw [hm] at hh
      simp [Except.toOption] at hh
    | error e => exact ⟨e, rfl⟩
  · intro i hsome
    rw [hsome] at hh
    cases hm : Konnectivity.deploymentMutate tcp d with
    | ok d2 => exact ⟨d2, rfl⟩
    | error e =>
      rw [hm] at hh
      simp [Except.toOption] at hh

theorem C4_witness :
    (∃ d2, Konnectivity.deploymentMutate tcpEnabled dPrimaryOnly = .ok d2) ∧
    (∃ e, Konnectivity.deploymentMutate tcpEnabled { containers := [{ name := "etcd" }] } = .error e) :=
  ⟨(C4_inject_requires_primary tcpEnabled _ dPrimaryOnly rfl).2 0 (by decide),
    (C4_inject_requires_primary tcpEnabled _ { containers := [{ name := "etcd" }] } rfl).1
      (by decide)⟩

set_option maxHeartbeats 1000000 in
/-- C5: the konnectivity sidecar argument map is built by decoding the
user-supplied extra arguments and assigning every required flag afterwards,
so each required flag resolves to its required value whatever the extra
arguments said. -/
theorem C5_required_flags_win (k : KonnectivitySpec) (rep : Int)
    (c : Container) :
    (Konnectivity.syncedServerContainer k rep c).args
      = ArgsFromMapToSlice (Konnectivity.konnectivityServerArgs k rep) ∧
    argsLookup (Konnectivity.konnectivityServerArgs k rep) "--uds-name"
      = some (some (Konnectivity.konnectivityServerPath ++ "/konnectivity-server.socket")) ∧
    argsLookup (Konnectivity.konnectivityServerArgs k rep) "--cluster-cert"
      = some (some "/etc/kubernetes/pki/apiserver.crt") ∧
    argsLookup (Konnectivity.konnectivityServerArgs k rep) "--cluster-key"
      = some (some "/etc/kubernetes/pki/apiserver.key") ∧
    argsLookup (Konnectivity.konnectivityServerArgs k rep) "--mode"
      = some (some "grpc") ∧
    argsLookup (Konnectivity.konnectivityServerArgs k rep) "--server-port"
      = some (some "0") ∧
    argsLookup (Konnectivity.konnectivityServerArgs k rep) "--agent-port"
      = some (some (toString k.port)) ∧
    argsLookup (Konnectivity.konnectivityServerArgs k rep) "--admin-port"
      = some (some "8133") ∧
    argsLookup (Konnectivity.konnectivityServerArgs k rep) "--health-port"
      = some (some "8134") ∧
    argsLookup (Konnectivity.konnectivityServerArgs k rep) "--agent-namespace"
      = some (some "kube-system") ∧
    argsLookup (Konnectivity.konnectivityServerArgs k rep) "--agent-service-account"
      = some (some Konnectivity.AgentName) ∧
    argsLookup (Konnectivity.konnectivityServerArgs k rep) "--kubeconfig"
      = some (some "/etc/kubernetes/konnectivity-server.conf") ∧
    argsLookup (Konnectivity.konnectivityServerArgs k rep) "--authentication-audience"
      = some (some Konnectivity.CertCommonName) ∧
    argsLookup (Konnectivity.konnectivityServerArgs k rep) "--server-count"
      = some (some (toString rep)) := by
  refine ⟨by rw [Konnectivity.syncedServerContainer], ?_, ?_, ?_, ?_, ?_, ?_,
    ?_, ?_, ?_, ?_, ?_, ?_, ?_⟩ <;>
  · simp only [Konnectivity.konnectivityServerArgs, argsLookup_setFlag]
    simp

/-- C6: the konnectivity clean-up mutation is a no-op, returning
`(false, nil)`, on a Deployment holding no konnectivity contribution: no
sidecar container, no egress-selector flag on the `kube-apiserver`
container, and none of the konnectivity volumes or volume mounts. -/
theorem C6_cleanup_noop (d : Deployment)
    (hsc : findNamed Konnectivity.konnectivityServerName Container.name d.containers = none)
    (hkas : ∀ j c, findNamed "kube-apiserver" Container.name d.containers = some j →
      d.containers[j]? = some c →
      (ArgsFromSliceToMap c.args).any (fun p => p.1 = "--egress-selector-config-file") = false ∧
      findNamed Konnectivity.konnectivityUDSVolume VolumeMount.name c.volumeMounts = none ∧
      findNamed Konnectivity.egressSelectorConfigurationVolume VolumeMount.name c.volumeMounts = none ∧
      findNamed Konnectivity.konnectivityServerKubeconfigVolume VolumeMount.name c.volumeMounts = none)
    (hv1 : findNamed Konnectivity.konnectivityUDSVolume Volume.name d.volumes = none)
    (hv2 : findNamed Konnectivity.egressSelectorConfigurationVolume Volume.name d.volumes = none) :
    Konnectivity.deploymentCleanUp d = ((false, none), d) := by
  have hmut := Konnectivity.cleanUpMutate_noop hsc hkas hv1 hv2
  simp [Konnectivity.deploymentCleanUp, hmut]

theorem C6_witness :
    Konnectivity.deploymentCleanUp dUntouched = ((false, none), dUntouched) := by
  refine C6_cleanup_noop dUntouched (by decide) ?_ (by decide) (by decide)
  intro j c hj hc
  have h0 : findNamed "kube-apiserver" Container.name dUntouched.containers
      = some 0 := by decide
  rw [h0] at hj
  injection hj with hj
  subst hj
  have hc0 : dUntouched.containers[0]?
      = some { name := "kube-apiserver", args := ["--a=b"], volumeMounts := [{ name := "pki", mountPath := "/pki" }] } := by
    decide
  rw [hc0] at hc
  injection hc with hc
  subst hc
  exact ⟨by decide, by decide, by decide, by decide⟩

/-- C7: `ClusterRoleBindingResource.CleanUp` swallows a not-found delete
error as `(false, nil)`, propagates any other delete error as
`(false, err)`, and reports `(true, nil)` on success. -/
theorem C7_crb_cleanup (e : String) :
    Konnectivity.clusterRoleBindingCleanUp .notFound = (false, none) ∧
    Konnectivity.clusterRoleBindingCleanUp (.otherError e) = (false, some e) ∧
    Konnectivity.clusterRoleBindingCleanUp .success = (true, none) :=
  ⟨rfl, rfl, rfl⟩

/-- C8: `ClusterRoleBindingResource.CreateOrUpdate` performs no operation
when the add-on is absent from the spec; when it runs, the mutation fully
overwrites the role reference with the fixed ClusterRole reference and the
subjects with the single `User` subject named `CertCommonName`. -/
theorem C8_crb_createOrUpdate (tcp : TenantControlPlane)
    (b : Konnectivity.ClusterRoleBinding) :
    (tcp.spec.konnectivity = none →
      Konnectivity.clusterRoleBindingCreateOrUpdate tcp b
        = ((.resultNone, none), b)) ∧
    (Konnectivity.clusterRoleBindingMutate b).roleRef
      = { apiGroup := Konnectivity.rbacGroupName, kind := "ClusterRole", name := Konnectivity.roleAuthDelegator } ∧
    (Konnectivity.clusterRoleBindingMutate b).subjects
      = [{ apiGroup := Konnectivity.rbacGroupName, kind := Konnectivity.rbacUserKind, name := Konnectivity.CertCommonName }] := by
  refine ⟨?_, rfl, rfl⟩
  intro h
  simp [Konnectivity.clusterRoleBindingCreateOrUpdate, h]

theorem C8_witness :
    Konnectivity.clusterRoleBindingCreateOrUpdate tcpDisabled {}
      = ((.resultNone, none), ({} : Konnectivity.ClusterRoleBinding)) :=
  (C8_crb_createOrUpdate tcpDisabled {}).1 rfl

/-- C9: the datastore Config mutation sets `DB_SCHEMA` and `DB_USER` to the
status-recorded schema and user when those are non-empty, and otherwise to
the deterministic `namespace_name` default. -/
theorem C9_schema_user_coalesce (conn fresh : String)
    (tcp : TenantControlPlane) (s : Datastore.Secret) :
    mapLookup (Datastore.configMutate conn fresh tcp s).data "DB_SCHEMA"
      = some (if tcp.status.storageSetup.schema.length > 0
          then tcp.status.storageSetup.schema
          else tcp.ns ++ "_" ++ tcp.name) ∧
    mapLookup (Datastore.configMutate conn fresh tcp s).data "DB_USER"
      = some (if tcp.status.storageSetup.user.length > 0
          then tcp.status.storageSetup.user
          else tcp.ns ++ "_" ++ tcp.name) := by
  constructor <;> simp [Datastore.configMutate, mapLookup, List.find?]

/-- C10: the datastore Config resource has no cleanup of its own:
`ShouldCleanup` is constantly false, `CleanUp` returns `(false, nil)`
leaving the secret and the tenant control plane untouched, and the mutation
sets the controller ownership reference that removal relies on. -/
theorem C10_config_no_cleanup (conn fresh : String) (s : Datastore.Secret)
    (tcp : TenantControlPlane) :
    Datastore.configShouldCleanup tcp = false ∧
    Datastore.configCleanUp s tcp = ((false, none), s, tcp) ∧
    (Datastore.configMutate conn fresh tcp s).ownerRef = some tcp.name :=
  ⟨rfl, rfl, rfl⟩

end Kamaji


